import Mathlib

/-!
Verification of the WAGTAIL-OJT content-model repository.

The repository declares Wagtail page types (`HomePage`, `BlogPage`,
`BlogIndexPage`), reusable StreamField blocks (`customblocks/blocks.py`) and
two template helpers (`customblocks/templatetags/customblocks_tags.py`).
This file shallowly embeds those declarations and the small amount of
behaviour they configure, and proves the specified properties about them.

Framework capabilities (Wagtail/Django validation of declared fields,
stream persistence, rich-text expansion) are not part of the repository's
source; where a property depends on them they are modelled from the spec,
with a doc comment saying so.
-/

set_option autoImplicit false

namespace WagtailOJT

/-! ## Data model

A stream field value is an ordered sequence of typed block values (spec §3).
Block values are polymorphic over the declared variants: atomic text-like
values (heading text, rich text, URLs), image references, lists, and
structured records of named sub-values. -/

/-- A block value as stored inside a stream: a tagged union over the value
shapes the declared blocks use (spec §3, §9). -/
inductive BlockVal where
  | str (s : String)
  | image (id : Option Nat)
  | list (items : List BlockVal)
  | struct (fields : List (String × BlockVal))

/-! ## Stream renderer
(`customblocks/templatetags/customblocks_tags.py`, `render_streamfield`)

Each child of a stream value exposes `block` (the block definition, carrying
its rendering rule) and `value`.  A rendering rule takes the block value and
the ambient template context and either produces HTML or raises; raising is
modelled with `Except`. -/

/-- A block definition as seen by the renderer: its block-specific rendering
rule (template-based or framework default). -/
structure Block (Ctx Err : Type) where
  render : BlockVal → Ctx → Except Err String

/-- A bound child of a stream value: in the source loop each element exposes
`block.block` and `block.value`. -/
structure BoundBlock (Ctx Err : Type) where
  block : Block Ctx Err
  value : BlockVal

/-- Python's `"".join(rendered)`: concatenation of the rendered fragments in
order. -/
def joinAll (l : List String) : String :=
  l.foldr (fun a b => a ++ b) ""

/-- The renderer's `for` loop: render each child in order with the context,
collecting the HTML fragments; an exception from any `render` call aborts
the loop and propagates. -/
def renderAll {Ctx Err : Type} (context : Ctx) :
    List (BoundBlock Ctx Err) → Except Err (List String)
  | [] => Except.ok []
  | b :: rest =>
    match b.block.render b.value context with
    | Except.error e => Except.error e
    | Except.ok html =>
      match renderAll context rest with
      | Except.error e => Except.error e
      | Except.ok tail => Except.ok (html :: tail)

/-- `render_streamfield(context, stream_value)`: returns `""` for a falsy
stream value (absent or empty), otherwise renders every child with its own
block's rendering rule and concatenates the fragments in stream order. -/
def render_streamfield {Ctx Err : Type} (context : Ctx)
    (stream_value : Option (List (BoundBlock Ctx Err))) : Except Err String :=
  match stream_value with
  | none => Except.ok ""
  | some [] => Except.ok ""
  | some children =>
    match renderAll context children with
    | Except.error e => Except.error e
    | Except.ok rendered => Except.ok (joinAll rendered)

/-! ## Renderer lemmas -/

theorem renderAll_ok_of_forall {Ctx Err : Type} (context : Ctx)
    (renderOf : BoundBlock Ctx Err → String) :
    ∀ l : List (BoundBlock Ctx Err),
      (∀ b ∈ l, b.block.render b.value context = Except.ok (renderOf b)) →
      renderAll context l = Except.ok (l.map renderOf) := by
  intro l
  induction l with
  | nil => intro _; rfl
  | cons b rest ih =>
    intro h
    have hb := h b (List.mem_cons_self b rest)
    have hrest := ih (fun c hc => h c (List.mem_cons_of_mem b hc))
    simp [renderAll, hb, hrest]

theorem renderAll_error_mem {Ctx Err : Type} (context : Ctx) :
    ∀ (l : List (BoundBlock Ctx Err)) (e : Err),
      renderAll context l = Except.error e →
      ∃ b ∈ l, b.block.render b.value context = Except.error e := by
  intro l
  induction l with
  | nil => intro e h; simp [renderAll] at h
  | cons b rest ih =>
    intro e h
    rcases hok : b.block.render b.value context with e' | html
    · simp only [renderAll, hok] at h
      cases h
      exact ⟨b, List.mem_cons_self b rest, hok⟩
    · simp only [renderAll, hok] at h
      rcases hrest : renderAll context rest with e'' | tail
      · simp only [hrest] at h
        obtain ⟨c, hc, hce⟩ := ih e'' hrest
        cases h
        exact ⟨c, List.mem_cons_of_mem b hc, hce⟩
      · simp only [hrest] at h
        cases h

theorem renderAll_forall_ok {Ctx Err : Type} (context : Ctx) :
    ∀ (l : List (BoundBlock Ctx Err)) (hs : List String),
      renderAll context l = Except.ok hs →
      ∀ b ∈ l, ∃ h, b.block.render b.value context = Except.ok h := by
  intro l
  induction l with
  | nil => intro hs _ b hb; cases hb
  | cons b rest ih =>
    intro hs h c hc
    rcases hb : b.block.render b.value context with e | html
    · simp only [renderAll, hb] at h
      cases h
    · rcases hrest : renderAll context rest with e | tail
      · simp only [renderAll, hb, hrest] at h
        cases h
      · rcases List.mem_cons.mp hc with hcb | hcr
        · exact ⟨html, hcb ▸ hb⟩
        · exact ih tail hrest c hcr

/-! ## Rich-text expansion
(`customblocks/templatetags/customblocks_tags.py`, `richtext` /
`wagtail.rich_text.expand_db_html`)

A stored rich-text value interleaves literal HTML text with internal
reference tokens (spec glossary: "stored text containing formatting and
internal reference tokens (e.g., to images) requiring expansion before
display"). -/

/-- One part of a stored rich-text value: literal HTML text, or an internal
image reference token identified by the referenced image's id. -/
inductive RichTextToken where
  | text (s : String)
  | imageRef (id : Nat)

/-- The serialized form an image reference token takes in the stored value:
an `<embed embedtype="image" .../>` element carrying the id.  This is the
"raw reference token" that must not survive expansion. -/
def rawImageToken (id : Nat) : String :=
  "<embed embedtype=\"image\" id=\"" ++ toString id ++ "\"/>"

/-- The marker substring common to every raw reference token. -/
def rawRefMarker : String := "embedtype"

/-- `leadsWith pat l`: the character list `l` starts with `pat`. -/
def leadsWith : List Char → List Char → Bool
  | [], _ => true
  | _ :: _, [] => false
  | a :: as, b :: bs => a == b && leadsWith as bs

/-- `isSubOf pat l`: `pat` occurs contiguously inside `l`. -/
def isSubOf (pat : List Char) : List Char → Bool
  | [] => leadsWith pat []
  | c :: rest => leadsWith pat (c :: rest) || isSubOf pat rest

/-- A string free of raw reference tokens: it does not contain the raw-token
marker, hence no raw reference token. -/
def rawTokenFree (s : String) : Bool :=
  !(isSubOf rawRefMarker.data s.data)

/-- `cleanBreak pat l`: no non-empty suffix of `l` is a non-empty proper
leading piece of `pat`.  Text ending in such an `l` cannot begin an
occurrence of `pat` that spills over into whatever follows it. -/
def cleanBreak (pat : List Char) : List Char → Bool
  | [] => true
  | c :: rest =>
    !(leadsWith (c :: rest) pat && decide ((c :: rest).length < pat.length)) &&
      cleanBreak pat rest

/-- Modelled from the spec: the framework's expansion rewrites one part of a
stored rich-text value — literal text is kept unchanged, an internal image
reference token is replaced by the concrete markup the framework resolves
the referenced image to (spec §4.4: "output is fully expanded HTML";
testable property: the token is "expanded to a concrete `<img>`-bearing
markup"). The resolution itself (database lookup of the image rendition) is
the framework's; it is passed in as `resolveImage`. -/
def expandToken (resolveImage : Nat → String) : RichTextToken → String
  | RichTextToken.text s => s
  | RichTextToken.imageRef id => resolveImage id

/-- Modelled from the spec: `wagtail.rich_text.expand_db_html` expands every
internal reference token of the stored value and returns the resulting
HTML string (spec §4.4: "delegates entirely to the framework's expansion
routine"). -/
def expand_db_html (resolveImage : Nat → String) (value : List RichTextToken) : String :=
  joinAll (value.map (expandToken resolveImage))

/-- The `richtext` template filter: a shortcut that applies the framework's
expansion to the stored value. -/
def richtext (resolveImage : Nat → String) (value : List RichTextToken) : String :=
  expand_db_html resolveImage value

/-! ## Substring lemmas -/

theorem leadsWith_append (pat xs ys : List Char) :
    leadsWith pat xs = true → leadsWith pat (xs ++ ys) = true := by
  induction pat generalizing xs with
  | nil => intro _; rfl
  | cons a as ih =>
    intro h
    cases xs with
    | nil => cases h
    | cons x xs' =>
      simp only [leadsWith, Bool.and_eq_true] at h ⊢
      exact ⟨h.1, ih xs' h.2⟩

theorem isSubOf_append_left (pat xs ys : List Char) :
    isSubOf pat xs = true → isSubOf pat (xs ++ ys) = true := by
  induction xs with
  | nil =>
    intro h
    simp only [isSubOf] at h
    cases pat with
    | nil =>
      cases ys with
      | nil => rfl
      | cons y ys' => simp [isSubOf, leadsWith]
    | cons p ps => cases h
  | cons x xs' ih =>
    intro h
    simp only [isSubOf, Bool.or_eq_true] at h ⊢
    rcases h with h | h
    · exact Or.inl (leadsWith_append pat (x :: xs') ys h)
    · exact Or.inr (ih h)

theorem isSubOf_append_right (pat xs ys : List Char) :
    isSubOf pat ys = true → isSubOf pat (xs ++ ys) = true := by
  induction xs with
  | nil => intro h; exact h
  | cons x xs' ih =>
    intro h
    simp only [List.cons_append, isSubOf, Bool.or_eq_true]
    exact Or.inr (ih h)

theorem isSubOf_joinAll_of_mem (pat : List Char) (s : String) (l : List String) :
    s ∈ l → isSubOf pat s.data = true → isSubOf pat (joinAll l).data = true := by
  induction l with
  | nil => intro h; cases h
  | cons a l' ih =>
    intro hmem hsub
    have hdata : (joinAll (a :: l')).data = a.data ++ (joinAll l').data := by
      show (a ++ joinAll l').data = a.data ++ (joinAll l').data
      exact String.data_append a (joinAll l')
    rcases List.mem_cons.mp hmem with rfl | hmem'
    · rw [hdata]; exact isSubOf_append_left pat s.data _ hsub
    · rw [hdata]; exact isSubOf_append_right pat _ _ (ih hmem' hsub)

theorem leadsWith_refl (l : List Char) : leadsWith l l = true := by
  induction l with
  | nil => rfl
  | cons a as ih => simp [leadsWith, ih]

theorem leadsWith_self_append (s t : List Char) : leadsWith s (s ++ t) = true :=
  leadsWith_append s s t (leadsWith_refl s)

theorem leadsWith_exists (pat : List Char) :
    ∀ l : List Char, leadsWith pat l = true → ∃ v, pat ++ v = l := by
  induction pat with
  | nil => intro l _; exact ⟨l, rfl⟩
  | cons a as ih =>
    intro l h
    cases l with
    | nil => cases h
    | cons b bs =>
      simp only [leadsWith, Bool.and_eq_true, beq_iff_eq] at h
      obtain ⟨v, hv⟩ := ih bs h.2
      exact ⟨v, by rw [List.cons_append, hv, h.1]⟩

theorem leadsWith_split (pat xs ys : List Char) :
    leadsWith pat (xs ++ ys) = true →
    leadsWith pat xs = true ∨ ∃ t, xs ++ t = pat ∧ leadsWith t ys = true := by
  induction xs generalizing pat with
  | nil => intro h; exact Or.inr ⟨pat, rfl, h⟩
  | cons x xs' ih =>
    intro h
    cases pat with
    | nil => exact Or.inl rfl
    | cons p ps =>
      simp only [List.cons_append, leadsWith, Bool.and_eq_true, beq_iff_eq] at h
      rcases ih ps h.2 with h' | ⟨t, ht, hlt⟩
      · exact Or.inl (by simp [leadsWith, h.1, h'])
      · refine Or.inr ⟨t, ?_, hlt⟩
        rw [List.cons_append, ht, h.1]

theorem isSubOf_append_cases (pat xs ys : List Char) :
    isSubOf pat (xs ++ ys) = true →
    isSubOf pat xs = true ∨ isSubOf pat ys = true ∨
      ∃ s t u, s ++ t = pat ∧ s ≠ [] ∧ t ≠ [] ∧ u ++ s = xs ∧ leadsWith t ys = true := by
  induction xs with
  | nil => intro h; exact Or.inr (Or.inl h)
  | cons x xs' ih =>
    intro h
    rw [List.cons_append] at h
    simp only [isSubOf, Bool.or_eq_true] at h
    rcases h with h | h
    · have h' : leadsWith pat ((x :: xs') ++ ys) = true := by
        rw [List.cons_append]; exact h
      rcases leadsWith_split pat (x :: xs') ys h' with hl | ⟨t, ht, hlt⟩
      · exact Or.inl (by simp [isSubOf, hl])
      · cases t with
        | nil =>
          have hp : pat = x :: xs' := by rw [← ht]; simp
          exact Or.inl (by rw [hp]; simp [isSubOf, leadsWith_refl])
        | cons c cs =>
          exact Or.inr (Or.inr
            ⟨x :: xs', c :: cs, [], ht, by simp, by simp, by simp, hlt⟩)
    · rcases ih h with h' | h' | ⟨s, t, u, h1, h2, h3, h4, h5⟩
      · exact Or.inl (by simp [isSubOf, h'])
      · exact Or.inr (Or.inl h')
      · exact Or.inr (Or.inr
          ⟨s, t, x :: u, h1, h2, h3, by rw [List.cons_append, h4], h5⟩)

theorem cleanBreak_suffix (pat u s : List Char) :
    cleanBreak pat (u ++ s) = true → cleanBreak pat s = true := by
  induction u with
  | nil => intro h; exact h
  | cons c u' ih =>
    intro h
    rw [List.cons_append] at h
    simp only [cleanBreak, Bool.and_eq_true] at h
    exact ih h.2

theorem isSubOf_joinAll_eq_false (pat : List Char) (hpat : pat ≠ []) :
    ∀ l : List String,
      (∀ p ∈ l, isSubOf pat p.data = false ∧ cleanBreak pat p.data = true) →
      isSubOf pat (joinAll l).data = false := by
  intro l
  induction l with
  | nil =>
    intro _
    cases pat with
    | nil => exact absurd rfl hpat
    | cons c cs => rfl
  | cons a l' ih =>
    intro h
    have hdata : (joinAll (a :: l')).data = a.data ++ (joinAll l').data := by
      show (a ++ joinAll l').data = a.data ++ (joinAll l').data
      exact String.data_append a (joinAll l')
    rw [hdata]
    cases hx : isSubOf pat (a.data ++ (joinAll l').data) with
    | false => rfl
    | true =>
      exfalso
      rcases isSubOf_append_cases pat a.data (joinAll l').data hx with
        hc | hc | ⟨s, t, u, h1, h2, h3, h4, h5⟩
      · have hfa := (h a (List.mem_cons_self a l')).1
        rw [hfa] at hc
        cases hc
      · have hjf := ih (fun p hp => h p (List.mem_cons_of_mem a hp))
        rw [hjf] at hc
        cases hc
      · have hcb : cleanBreak pat s = true := by
          have hca := (h a (List.mem_cons_self a l')).2
          rw [← h4] at hca
          exact cleanBreak_suffix pat u s hca
        cases s with
        | nil => exact h2 rfl
        | cons c cs =>
          simp only [cleanBreak, Bool.and_eq_true] at hcb
          have hlw : leadsWith (c :: cs) pat = true := by
            rw [← h1]; exact leadsWith_self_append (c :: cs) t
          have hlen : (c :: cs).length < pat.length := by
            rw [← h1, List.length_append]
            have ht0 : 0 < t.length := List.length_pos.mpr h3
            omega
          have hdec : decide ((c :: cs).length < pat.length) = true :=
            decide_eq_true hlen
          have hcb1 := hcb.1
          rw [hlw, hdec] at hcb1
          simp at hcb1

theorem isSubOf_self (a : List Char) : isSubOf a a = true := by
  cases a with
  | nil => rfl
  | cons c cs => simp [isSubOf, leadsWith_refl]

theorem isSubOf_exists (a : List Char) :
    ∀ b : List Char, isSubOf a b = true → ∃ u v, u ++ (a ++ v) = b := by
  intro b
  induction b with
  | nil =>
    intro h
    cases a with
    | nil => exact ⟨[], [], rfl⟩
    | cons c cs => cases h
  | cons c rest ih =>
    intro h
    simp only [isSubOf, Bool.or_eq_true] at h
    rcases h with h | h
    · obtain ⟨v, hv⟩ := leadsWith_exists a (c :: rest) h
      exact ⟨[], v, by simp [hv]⟩
    · obtain ⟨u, v, huv⟩ := ih h
      exact ⟨c :: u, v, by rw [List.cons_append, huv]⟩

theorem exists_isSubOf (a u v : List Char) : isSubOf a (u ++ (a ++ v)) = true :=
  isSubOf_append_right a u (a ++ v) (isSubOf_append_left a a v (isSubOf_self a))

theorem isSubOf_trans (a b c : List Char) :
    isSubOf a b = true → isSubOf b c = true → isSubOf a c = true := by
  intro hab hbc
  obtain ⟨u, v, huv⟩ := isSubOf_exists a b hab
  obtain ⟨p, q, hpq⟩ := isSubOf_exists b c hbc
  rw [← hpq, ← huv]
  have hassoc : p ++ ((u ++ (a ++ v)) ++ q) = (p ++ u) ++ (a ++ (v ++ q)) := by
    simp [List.append_assoc]
  rw [hassoc]
  exact exists_isSubOf a (p ++ u) (v ++ q)

theorem marker_isSubOf_rawImageToken (k : Nat) :
    isSubOf rawRefMarker.data (rawImageToken k).data = true := by
  have h1 : isSubOf rawRefMarker.data ("<embed embedtype=\"image\" id=\"").data = true := by
    decide
  have h2 : (rawImageToken k).data =
      ("<embed embedtype=\"image\" id=\"").data ++
        ((toString k).data ++ ("\"/>").data) := by
    show (("<embed embedtype=\"image\" id=\"" ++ toString k) ++ "\"/>").data = _
    rw [String.data_append, String.data_append, List.append_assoc]
  rw [h2]
  exact isSubOf_append_left _ _ _ h1

/-! ## Field-level validation
(Modelled framework behaviour configured by `customblocks/blocks.py`.)

Each Wagtail field block type carries a `required` flag from its declaration;
the framework's save/validation path enforces it.  Spec §3: "required
sub-fields ... must be non-empty at save time"; §7: validation errors are
"raised by the framework's save/validation path". -/

/-- Modelled from the spec: validation of a `CharBlock` value — a required
character field must be non-empty at save time; an optional one accepts
anything. -/
def charBlockClean (required : Bool) (value : String) : Bool :=
  !required || !(value == "")

/-- Modelled from the spec: validation of a `TextBlock` value — same
required/non-empty rule as other text-like fields. -/
def textBlockClean (required : Bool) (value : String) : Bool :=
  !required || !(value == "")

/-- Modelled from the spec: validation of a `RichTextBlock` value — a
required rich-text field must be non-empty at save time. -/
def richTextBlockClean (required : Bool) (value : String) : Bool :=
  !required || !(value == "")

/-- The URL schemes the framework's URL field recognises. -/
def urlSchemes : List String := ["http://", "https://", "ftp://", "ftps://"]

/-- Modelled from the spec: a value is a valid URL when it starts with a
recognised scheme followed by a non-empty remainder. -/
def isValidUrl (value : String) : Bool :=
  urlSchemes.any (fun p => leadsWith p.data value.data && p.data.length < value.data.length)

/-- Modelled from the spec: validation of a `URLBlock` value — an empty
value is accepted only when the field is optional; a non-empty value must be
a valid URL. -/
def urlBlockClean (required : Bool) (value : String) : Bool :=
  if value == "" then !required else isValidUrl value

/-- Modelled from the spec: validation of an `ImageChooserBlock` value — a
required image chooser must reference a chosen image. -/
def imageChooserClean (required : Bool) (value : Option Nat) : Bool :=
  !required || value.isSome

/-- Modelled from the spec: validation of a `ListBlock` value — every child
must validate, and when a `min_num` is declared the list must hold at least
that many children. -/
def listBlockClean {α : Type} (childClean : α → Bool) (min_num : Option Nat)
    (items : List α) : Bool :=
  (match min_num with
   | none => true
   | some n => decide (n ≤ items.length)) && items.all childClean

/-! ## Block schemas (`customblocks/blocks.py`)

Each `StructBlock` subclass becomes a value record plus its validation
function composed field-by-field from the declaration, and a `Meta`
configuration record. -/

/-- A block's `Meta` configuration: presentation metadata, and optionally an
explicit external template file used at render time. -/
structure BlockMeta where
  icon : Option String
  label : Option String
  template : Option String

/-- Value of `FAQItemBlock`: `question = CharBlock(required=True)`,
`answer = RichTextBlock(required=True)`. -/
structure FAQItemValue where
  question : String
  answer : String

/-- Validation of a `FAQItemBlock` value, field by field from its
declaration. -/
def FAQItemBlock_clean (v : FAQItemValue) : Bool :=
  charBlockClean true v.question && richTextBlockClean true v.answer

/-- `FAQItemBlock.Meta`: `icon = "help"`, `label = "FAQ Item"`, no
template. -/
def FAQItemBlock_meta : BlockMeta :=
  ⟨some "help", some "FAQ Item", none⟩

/-- Value of `FAQBlock`: `title = CharBlock(required=False, default=...)`,
`items = ListBlock(FAQItemBlock())` (no `min_num`). -/
structure FAQValue where
  title : String
  items : List FAQItemValue

/-- Validation of a `FAQBlock` value: optional title, list of FAQ items
with no declared minimum. -/
def FAQBlock_clean (v : FAQValue) : Bool :=
  charBlockClean false v.title && listBlockClean FAQItemBlock_clean none v.items

/-- `FAQBlock.Meta`: `icon = "help"`, `label = "FAQ Section"`,
`template = "customblocks/blocks/faq_block.html"`. -/
def FAQBlock_meta : BlockMeta :=
  ⟨some "help", some "FAQ Section", some "customblocks/blocks/faq_block.html"⟩

/-- Value of `TestimonialBlock`: `quote = TextBlock(required=True)`,
`name = CharBlock(required=True)`, `role = CharBlock(required=False)`,
`avatar = ImageChooserBlock(required=False)`. -/
structure TestimonialValue where
  quote : String
  name : String
  role : String
  avatar : Option Nat

/-- Validation of a `TestimonialBlock` value, field by field from its
declaration. -/
def TestimonialBlock_clean (v : TestimonialValue) : Bool :=
  textBlockClean true v.quote && charBlockClean true v.name &&
    charBlockClean false v.role && imageChooserClean false v.avatar

/-- `TestimonialBlock.Meta`: `icon = "user"`, `label = "Testimonial"`, no
template. -/
def TestimonialBlock_meta : BlockMeta :=
  ⟨some "user", some "Testimonial", none⟩

/-- Value of `TestimonialSliderBlock`:
`title = CharBlock(required=False, default=...)`,
`testimonials = ListBlock(TestimonialBlock(), min_num=1)`. -/
structure TestimonialSliderValue where
  title : String
  testimonials : List TestimonialValue

/-- Validation of a `TestimonialSliderBlock` value: optional title, list of
testimonials with `min_num=1`. -/
def TestimonialSliderBlock_clean (v : TestimonialSliderValue) : Bool :=
  charBlockClean false v.title &&
    listBlockClean TestimonialBlock_clean (some 1) v.testimonials

/-- `TestimonialSliderBlock.Meta`: `icon = "group"`,
`label = "Testimonial Slider"`,
`template = "customblocks/blocks/testimonial_slider.html"`. -/
def TestimonialSliderBlock_meta : BlockMeta :=
  ⟨some "group", some "Testimonial Slider",
    some "customblocks/blocks/testimonial_slider.html"⟩

/-- Value of `CallToActionBlock`: `eyebrow = CharBlock(required=False)`,
`headline = CharBlock(required=True)`, `body = RichTextBlock(required=False)`,
`button_text = CharBlock(required=True, default=...)`,
`button_url = URLBlock(required=True)`,
`secondary_link_text = CharBlock(required=False)`,
`secondary_link_url = URLBlock(required=False)`. -/
structure CallToActionValue where
  eyebrow : String
  headline : String
  body : String
  button_text : String
  button_url : String
  secondary_link_text : String
  secondary_link_url : String

/-- Validation of a `CallToActionBlock` value, field by field from its
declaration. -/
def CallToActionBlock_clean (v : CallToActionValue) : Bool :=
  charBlockClean false v.eyebrow && charBlockClean true v.headline &&
    richTextBlockClean false v.body && charBlockClean true v.button_text &&
    urlBlockClean true v.button_url && charBlockClean false v.secondary_link_text &&
    urlBlockClean false v.secondary_link_url

/-- `CallToActionBlock.Meta`: `icon = "placeholder"`,
`label = "Call to Action"`,
`template = "customblocks/blocks/call_to_action.html"`. -/
def CallToActionBlock_meta : BlockMeta :=
  ⟨some "placeholder", some "Call to Action",
    some "customblocks/blocks/call_to_action.html"⟩

/-! ## Template registry

The inline stream blocks declared directly in the page models —
`heading = CharBlock(...)`, `paragraph = RichTextBlock()`,
`image = ImageChooserBlock()` — declare no `Meta` and hence no template, so
they render with the framework default. -/

/-- Every block variant of the repository paired with the template its
declaration registers (`none` = framework default rendering). -/
def declaredBlockTemplates : List (String × Option String) :=
  [ ("FAQItemBlock", FAQItemBlock_meta.template),
    ("FAQBlock", FAQBlock_meta.template),
    ("TestimonialBlock", TestimonialBlock_meta.template),
    ("TestimonialSliderBlock", TestimonialSliderBlock_meta.template),
    ("CallToActionBlock", CallToActionBlock_meta.template),
    ("heading", none),
    ("paragraph", none),
    ("image", none) ]

/-! ## Page stream-field vocabularies (`home/models.py`, `blog/models.py`) -/

/-- The block-type vocabulary of `HomePage.body`. -/
def HomePage_body_blockTypes : List String :=
  ["heading", "paragraph", "faq", "testimonials", "cta"]

/-- The block-type vocabulary of `BlogPage.body`. -/
def BlogPage_body_blockTypes : List String :=
  ["paragraph", "image", "heading"]

/-- Modelled from the spec: the framework persists a stream-field value as a
structured document whose shape is "the ordered list of (type tag, value)
pairs" (spec §6), and a stream element's type tag "must be one of the page's
declared block types" (spec §3); a stream whose tags all belong to the
declared vocabulary is stored as that list. -/
def saveStream (vocab : List String) (stream : List (String × BlockVal)) :
    Option (List (String × BlockVal)) :=
  if stream.all (fun e => vocab.contains e.1) then some stream else none

/-- Modelled from the spec: reloading a page reads the stored ordered list
of (type tag, value) pairs back as the stream value (spec §6 storage
format). -/
def loadStream (stored : List (String × BlockVal)) : List (String × BlockVal) :=
  stored

/-! ## Claim theorems -/

/-- Claim C1: for every non-empty stream value and rendering context,
`render_streamfield` returns the concatenation, in stream order, of each
element's HTML produced by that element's own block-specific rendering
rule; in particular, for the stream
`[("heading","Welcome"), ("paragraph","<p>Hi</p>")]` the result is the
heading's rendered HTML immediately followed by the paragraph's rendered
HTML. -/
theorem render_streamfield_concat_in_order (Ctx Err : Type) (ctx : Ctx) :
    (∀ (children : List (BoundBlock Ctx Err)) (renderOf : BoundBlock Ctx Err → String),
      children ≠ [] →
      (∀ b ∈ children, b.block.render b.value ctx = Except.ok (renderOf b)) →
      render_streamfield ctx (some children) = Except.ok (joinAll (children.map renderOf))) ∧
    (∀ (headingBlock paragraphBlock : Block Ctx Err) (headingHtml paragraphHtml : String),
      headingBlock.render (BlockVal.str "Welcome") ctx = Except.ok headingHtml →
      paragraphBlock.render (BlockVal.str "<p>Hi</p>") ctx = Except.ok paragraphHtml →
      render_streamfield ctx (some
          [⟨headingBlock, BlockVal.str "Welcome"⟩,
           ⟨paragraphBlock, BlockVal.str "<p>Hi</p>"⟩]) =
        Except.ok (headingHtml ++ paragraphHtml)) := by
  constructor
  · intro children renderOf hne hall
    cases children with
    | nil => exact absurd rfl hne
    | cons b rest =>
      have h := renderAll_ok_of_forall ctx renderOf (b :: rest) hall
      simp only [render_streamfield, h]
  · intro headingBlock paragraphBlock headingHtml paragraphHtml h1 h2
    simp only [render_streamfield, renderAll, h1, h2, joinAll, List.foldr]
    rw [String.append_empty]

/-- Witness for claim C1 at the concrete two-element stream of the spec. -/
theorem render_streamfield_concat_in_order_witness :
    render_streamfield () (some
        ([⟨⟨fun _ _ => Except.ok "<h1>Welcome</h1>"⟩, BlockVal.str "Welcome"⟩,
          ⟨⟨fun _ _ => Except.ok "<p>Hi</p>"⟩, BlockVal.str "<p>Hi</p>"⟩] :
          List (BoundBlock Unit Unit))) =
      Except.ok ("<h1>Welcome</h1>" ++ "<p>Hi</p>") :=
  (render_streamfield_concat_in_order Unit Unit ()).2 _ _ _ _ rfl rfl

/-- Claim C2: for every absent (`None`) or empty stream value,
`render_streamfield` returns the empty string, regardless of the rendering
context. -/
theorem render_streamfield_empty_stream (Ctx Err : Type) (ctx : Ctx) :
    render_streamfield ctx (none : Option (List (BoundBlock Ctx Err))) = Except.ok "" ∧
    render_streamfield ctx (some ([] : List (BoundBlock Ctx Err))) = Except.ok "" :=
  ⟨rfl, rfl⟩

/-- Claim C9: if rendering any element of the stream raises an error,
`render_streamfield` propagates that error unchanged to its caller — it
catches no exceptions and produces no fallback content — and it raises an
error if and only if some block's render call raises. -/
theorem render_streamfield_error_propagation (Ctx Err : Type) (ctx : Ctx)
    (children : List (BoundBlock Ctx Err)) :
    (∀ e, render_streamfield ctx (some children) = Except.error e →
      ∃ b ∈ children, b.block.render b.value ctx = Except.error e) ∧
    ((∃ e, render_streamfield ctx (some children) = Except.error e) ↔
      ∃ b ∈ children, ∃ e, b.block.render b.value ctx = Except.error e) := by
  have part1 : ∀ e, render_streamfield ctx (some children) = Except.error e →
      ∃ b ∈ children, b.block.render b.value ctx = Except.error e := by
    intro e h
    cases children with
    | nil => simp [render_streamfield] at h
    | cons b rest =>
      rcases hra : renderAll ctx (b :: rest) with e' | rendered
      · simp only [render_streamfield, hra] at h
        cases h
        exact renderAll_error_mem ctx (b :: rest) e hra
      · simp only [render_streamfield, hra] at h
        cases h
  refine ⟨part1, ?_, ?_⟩
  · rintro ⟨e, h⟩
    obtain ⟨b, hb, he⟩ := part1 e h
    exact ⟨b, hb, e, he⟩
  · rintro ⟨b0, hmem, e0, he0⟩
    cases children with
    | nil => cases hmem
    | cons b rest =>
      rcases hra : renderAll ctx (b :: rest) with e' | rendered
      · exact ⟨e', by simp only [render_streamfield, hra]⟩
      · exfalso
        obtain ⟨h0, hok0⟩ := renderAll_forall_ok ctx (b :: rest) rendered hra b0 hmem
        rw [he0] at hok0
        cases hok0

/-- Witness for claim C9: a stream whose single block's render call raises
makes `render_streamfield` raise. -/
theorem render_streamfield_error_propagation_witness :
    ∃ e, render_streamfield () (some
        ([⟨⟨fun _ _ => Except.error "malformed value"⟩, BlockVal.str "x"⟩] :
          List (BoundBlock Unit String))) = Except.error e :=
  (render_streamfield_error_propagation Unit String () _).2.mpr
    ⟨_, List.mem_cons_self _ _, "malformed value", rfl⟩

/-- Claim C3: validation of a `TestimonialSliderBlock` value fails exactly
when its testimonials list is empty — zero testimonials are rejected, one
or more otherwise-valid testimonials are accepted. -/
theorem TestimonialSliderBlock_requires_testimonial (v : TestimonialSliderValue) :
    (v.testimonials = [] → TestimonialSliderBlock_clean v = false) ∧
    (v.testimonials ≠ [] →
      (∀ t ∈ v.testimonials, TestimonialBlock_clean t = true) →
      TestimonialSliderBlock_clean v = true) := by
  constructor
  · intro h
    simp [TestimonialSliderBlock_clean, listBlockClean, h]
  · intro hne hall
    have hlen : 1 ≤ v.testimonials.length := by
      cases hts : v.testimonials with
      | nil => exact absurd hts hne
      | cons t ts => simp
    simp [TestimonialSliderBlock_clean, charBlockClean, listBlockClean, hlen,
      List.all_eq_true]
    exact hall

/-- Witness for claim C3: the empty slider is rejected, a one-testimonial
slider is accepted. -/
theorem TestimonialSliderBlock_requires_testimonial_witness :
    TestimonialSliderBlock_clean ⟨"What our customers say", []⟩ = false ∧
    TestimonialSliderBlock_clean
      ⟨"What our customers say", [⟨"Great product", "Ann", "", none⟩]⟩ = true :=
  ⟨(TestimonialSliderBlock_requires_testimonial ⟨"What our customers say", []⟩).1 rfl,
   (TestimonialSliderBlock_requires_testimonial _).2 (by simp) (by decide)⟩

/-- Claim C4: validation of a `CallToActionBlock` value fails when
`button_url` is empty, and succeeds when `button_url` is a valid URL and
the required sub-fields `headline` and `button_text` are non-empty (the
optional sub-fields being otherwise well-formed: the optional secondary
URL empty or valid). -/
theorem CallToActionBlock_requires_button_url (v : CallToActionValue) :
    (v.button_url = "" → CallToActionBlock_clean v = false) ∧
    (isValidUrl v.button_url = true → v.headline ≠ "" → v.button_text ≠ "" →
      (v.secondary_link_url = "" ∨ isValidUrl v.secondary_link_url = true) →
      CallToActionBlock_clean v = true) := by
  constructor
  · intro h
    simp [CallToActionBlock_clean, urlBlockClean, h]
  · intro hurl hhead hbtn hsec
    have hne : ¬(v.button_url = "") := by
      intro h
      rw [h] at hurl
      exact absurd hurl (by decide)
    rcases hsec with hs | hs
    · simp [CallToActionBlock_clean, charBlockClean, richTextBlockClean,
        urlBlockClean, hurl, hhead, hbtn, hne, hs]
    · by_cases he : v.secondary_link_url = ""
      · simp [CallToActionBlock_clean, charBlockClean, richTextBlockClean,
          urlBlockClean, hurl, hhead, hbtn, hne, he]
      · simp [CallToActionBlock_clean, charBlockClean, richTextBlockClean,
          urlBlockClean, hurl, hhead, hbtn, hne, he, hs]

/-- Witness for claim C4: a CTA without a `button_url` fails, the same CTA
with a valid URL passes. -/
theorem CallToActionBlock_requires_button_url_witness :
    CallToActionBlock_clean
      ⟨"", "Start today", "", "Get started", "", "", ""⟩ = false ∧
    CallToActionBlock_clean
      ⟨"", "Start today", "", "Get started", "https://example.com/signup", "", ""⟩ = true :=
  ⟨(CallToActionBlock_requires_button_url _).1 rfl,
   (CallToActionBlock_requires_button_url _).2 (by decide) (by decide) (by decide)
     (Or.inl rfl)⟩

/-- Claim C6: a `FAQItemBlock` or `TestimonialBlock` value is accepted at
save time exactly when its required sub-fields are non-empty — FAQ question
and answer, testimonial quote and name; any of them empty fails
validation. -/
theorem required_subfields_nonempty (fv : FAQItemValue) (tv : TestimonialValue) :
    (FAQItemBlock_clean fv = true ↔ fv.question ≠ "" ∧ fv.answer ≠ "") ∧
    (TestimonialBlock_clean tv = true ↔ tv.quote ≠ "" ∧ tv.name ≠ "") := by
  constructor
  · simp [FAQItemBlock_clean, charBlockClean, richTextBlockClean]
  · simp [TestimonialBlock_clean, textBlockClean, charBlockClean, imageChooserClean]

/-- Claim C10: unlike the testimonial slider, `FAQBlock` places no minimum
on its items list — a value with zero FAQ items passes validation for any
(optional) title, while the slider rejects an empty testimonials list. -/
theorem FAQBlock_accepts_empty_items (title sliderTitle : String) :
    FAQBlock_clean ⟨title, []⟩ = true ∧
    TestimonialSliderBlock_clean ⟨sliderTitle, []⟩ = false := by
  constructor
  · simp [FAQBlock_clean, charBlockClean, listBlockClean]
  · simp [TestimonialSliderBlock_clean, charBlockClean, listBlockClean]

/-- Claim C8: exactly three block variants — `FAQBlock`,
`TestimonialSliderBlock` and `CallToActionBlock` — declare an explicit
external template in their `Meta`, and every other variant (`FAQItemBlock`,
`TestimonialBlock`, and the inline heading/paragraph/image blocks) declares
none and uses the framework default. -/
theorem explicit_templates_exactly_three :
    ((declaredBlockTemplates.filter (fun p => p.2.isSome)).map (fun p => p.1) =
      ["FAQBlock", "TestimonialSliderBlock", "CallToActionBlock"]) ∧
    ((declaredBlockTemplates.filter (fun p => p.2.isNone)).map (fun p => p.1) =
      ["FAQItemBlock", "TestimonialBlock", "heading", "paragraph", "image"]) := by
  constructor
  · rfl
  · rfl

/-- Claim C7: for every `HomePage` or `BlogPage` stream containing only
block types declared in that page's StreamField vocabulary, saving the page
and reloading it yields the same ordered sequence of (type tag, value)
pairs. -/
theorem stream_roundtrip (streamH streamB : List (String × BlockVal)) :
    (streamH.all (fun e => HomePage_body_blockTypes.contains e.1) = true →
      (saveStream HomePage_body_blockTypes streamH).map loadStream = some streamH) ∧
    (streamB.all (fun e => BlogPage_body_blockTypes.contains e.1) = true →
      (saveStream BlogPage_body_blockTypes streamB).map loadStream = some streamB) := by
  constructor <;> intro h <;> simp at h <;> simp [saveStream, loadStream] <;> exact h

/-- Witness for claim C7 at a concrete `HomePage` stream and a concrete
`BlogPage` stream of declared block types. -/
theorem stream_roundtrip_witness :
    ((saveStream HomePage_body_blockTypes
        [("heading", BlockVal.str "Welcome"),
         ("cta", BlockVal.struct [("headline", BlockVal.str "Start today")])]).map
      loadStream =
      some [("heading", BlockVal.str "Welcome"),
            ("cta", BlockVal.struct [("headline", BlockVal.str "Start today")])]) ∧
    ((saveStream BlogPage_body_blockTypes
        [("paragraph", BlockVal.str "<p>Hi</p>"), ("image", BlockVal.image (some 3))]).map
      loadStream =
      some [("paragraph", BlockVal.str "<p>Hi</p>"), ("image", BlockVal.image (some 3))]) :=
  ⟨(stream_roundtrip
      [("heading", BlockVal.str "Welcome"),
       ("cta", BlockVal.struct [("headline", BlockVal.str "Start today")])]
      [("paragraph", BlockVal.str "<p>Hi</p>"), ("image", BlockVal.image (some 3))]).1
      (by decide),
   (stream_roundtrip
      [("heading", BlockVal.str "Welcome"),
       ("cta", BlockVal.struct [("headline", BlockVal.str "Start today")])]
      [("paragraph", BlockVal.str "<p>Hi</p>"), ("image", BlockVal.image (some 3))]).2
      (by decide)⟩

/-- Claim C5: the `richtext` filter applied to a stored rich-text value
containing an internal image reference token returns expanded HTML in which
the resolved `<img>`-bearing markup appears, the returned string is free of
the raw-reference marker, and no raw reference token of any id occurs
anywhere in the returned string (fragment boundaries included). -/
theorem richtext_expands_image_refs
    (resolveImage : Nat → String) (value : List RichTextToken) (id : Nat)
    (hmem : RichTextToken.imageRef id ∈ value)
    (himg : isSubOf ("<img").data (resolveImage id).data = true)
    (hfree : ∀ t ∈ value,
      isSubOf rawRefMarker.data (expandToken resolveImage t).data = false ∧
      cleanBreak rawRefMarker.data (expandToken resolveImage t).data = true) :
    isSubOf ("<img").data (richtext resolveImage value).data = true ∧
    rawTokenFree (richtext resolveImage value) = true ∧
    ∀ k, isSubOf (rawImageToken k).data (richtext resolveImage value).data = false := by
  have hout : richtext resolveImage value =
      joinAll (value.map (expandToken resolveImage)) := rfl
  have hmarker : isSubOf rawRefMarker.data (richtext resolveImage value).data = false := by
    rw [hout]
    apply isSubOf_joinAll_eq_false rawRefMarker.data (by decide)
    intro p hp
    obtain ⟨t, ht, rfl⟩ := List.mem_map.mp hp
    exact hfree t ht
  refine ⟨?_, ?_, ?_⟩
  · have hin : resolveImage id ∈ value.map (expandToken resolveImage) :=
      List.mem_map_of_mem (expandToken resolveImage) hmem
    rw [hout]
    exact isSubOf_joinAll_of_mem _ _ _ hin himg
  · simp only [rawTokenFree, hmarker, Bool.not_false]
  · intro k
    cases hraw : isSubOf (rawImageToken k).data (richtext resolveImage value).data with
    | false => rfl
    | true =>
      exfalso
      have hm := isSubOf_trans rawRefMarker.data (rawImageToken k).data
        (richtext resolveImage value).data (marker_isSubOf_rawImageToken k) hraw
      rw [hmarker] at hm
      cases hm

/-- Witness for claim C5 at a concrete stored value with one image
reference. -/
theorem richtext_expands_image_refs_witness :
    isSubOf ("<img").data
      (richtext (fun j => "<img src=\"/media/images/" ++ toString j ++ ".jpg\">")
        [RichTextToken.text "<p>Intro</p>", RichTextToken.imageRef 7,
         RichTextToken.text "<p>Outro</p>"]).data = true ∧
    rawTokenFree
      (richtext (fun j => "<img src=\"/media/images/" ++ toString j ++ ".jpg\">")
        [RichTextToken.text "<p>Intro</p>", RichTextToken.imageRef 7,
         RichTextToken.text "<p>Outro</p>"]) = true ∧
    isSubOf (rawImageToken 7).data
      (richtext (fun j => "<img src=\"/media/images/" ++ toString j ++ ".jpg\">")
        [RichTextToken.text "<p>Intro</p>", RichTextToken.imageRef 7,
         RichTextToken.text "<p>Outro</p>"]).data = false := by
  have h := richtext_expands_image_refs
    (fun j => "<img src=\"/media/images/" ++ toString j ++ ".jpg\">")
    [RichTextToken.text "<p>Intro</p>", RichTextToken.imageRef 7,
     RichTextToken.text "<p>Outro</p>"]
    7 (by simp) (by decide) (by decide)
  exact ⟨h.1, h.2.1, h.2.2 7⟩
